import Mathlib

/-!
Shallow embedding of the applypatch core (src/applypatch/applypatch.c).

Bytes are modelled as lists of naturals, digests as 20-byte lists.  The
SHA-1 primitive itself is an external collaborator of the repository and
is passed everywhere as an abstract function parameter.  Machine
integers are naturals with an explicit mod 2^32 where 32-bit unsigned
overflow matters.
-/

abbrev Bytes := List Nat
abbrev Digest := List Nat

/-- Test hash used for concrete witnesses and counterexamples: an
injective-on-short-inputs stand-in for a 20-byte digest function. -/
def testSha (b : Bytes) : Digest := (b ++ List.replicate 20 0).take 20

/-! ## ParseSha1 (applypatch.c lines 358-382) -/

/-- Value of one hex digit, mirroring the three character-range tests of
ParseSha1. -/
def hexDigitVal (c : Char) : Option Nat :=
  if '0' ≤ c ∧ c ≤ '9' then some (c.toNat - '0'.toNat)
  else if 'a' ≤ c ∧ c ≤ 'f' then some (c.toNat - 'a'.toNat + 10)
  else if 'A' ≤ c ∧ c ≤ 'F' then some (c.toNat - 'A'.toNat + 10)
  else none

/-- Parse n bytes from 2n leading hex characters, returning the bytes and
the remaining characters.  Mirrors the 40-iteration loop of ParseSha1
(digit << 4 on even steps, |= digit on odd steps). -/
def parseHexPairs : Nat → List Char → Option (List Nat × List Char)
  | 0, cs => some ([], cs)
  | n + 1, c1 :: c2 :: cs =>
    match hexDigitVal c1, hexDigitVal c2, parseHexPairs n cs with
    | some d1, some d2, some (ds, rest) => some ((d1 * 16 + d2) :: ds, rest)
    | _, _, _ => none
  | _ + 1, _ => none

/-- ParseSha1: consume exactly 40 hex characters; the C code then checks
that the next character is the string terminator (line 380), so any
non-empty remainder is an error. -/
def ParseSha1 (s : List Char) : Option Digest :=
  match parseHexPairs 20 s with
  | some (d, []) => some d
  | _ => none

/-! ## Candidate sorting (applypatch.c lines 81-94 and 154-157)

The C code qsorts an index array by the size field.  We model this with a
stable insertion sort keyed on the size; like qsort with a comparator
that only inspects sizes, the relative order of equal sizes is a fixed
function of the input order. -/

def insertBySize (c : Nat × List Char) : List (Nat × List Char) → List (Nat × List Char)
  | [] => [c]
  | d :: ds => if c.1 ≤ d.1 then c :: d :: ds else d :: insertBySize c ds

def sortBySize : List (Nat × List Char) → List (Nat × List Char)
  | [] => []
  | c :: cs => insertBySize c (sortBySize cs)

/-! ## The speculative prefix probe (applypatch.c lines 187-229)

P is the raw partition contents.  The probe walks the candidates in the
order given (LoadMTDContents passes the sorted list), keeping the number
of bytes read so far in pos.  For a candidate of size s it reads s - pos
further bytes (a short read aborts, which happens exactly when
s > length P; when s < pos the size_t subtraction underflows into a huge
read request which also aborts as a short read), parses the digest string
(a parse failure aborts the whole load, line 212-218), and compares the
digest of the prefix read so far; on a match it stops and the matched
size is the result. -/
def probe (sha : Bytes → Digest) (P : Bytes) : Nat → List (Nat × List Char) → Option Nat
  | _, [] => none
  | pos, (s, hx) :: rest =>
    if pos ≤ s then
      if s ≤ P.length then
        match ParseSha1 hx with
        | some d => if d = sha (P.take s) then some s else probe sha P s rest
        | none => none
      else none
    else none

structure StatInfo where
  mode : Nat
  uid : Nat
  gid : Nat
deriving DecidableEq

structure FileContents where
  data : Bytes
  sha1 : Digest
  st : StatInfo
deriving DecidableEq

/-- LoadMTDContents at the level of an already-parsed candidate list.
The zero-size check mirrors lines 146-149 (strtol returning 0 aborts);
an empty pair list models the C code falling through its loops (after an
out-of-bounds index read) to the no-match failure.  On success the
loaded contents are the matched prefix and the returned digest is the
running hash of the bytes read (lines 243-246); the stat info is
synthesized as mode 0644, uid 0, gid 0 (lines 248-251). -/
def LoadMTDContents (sha : Bytes → Digest) (P : Bytes) (cands : List (Nat × List Char)) :
    Option FileContents :=
  if cands.isEmpty || cands.any (fun c => c.1 == 0) then none
  else
    match probe sha P 0 (sortBySize cands) with
    | some s => some ⟨P.take s, sha (P.take s), ⟨0o644, 0, 0⟩⟩
    | none => none

/-! ## Locator-level loader (applypatch.c lines 116-152) -/

/-- Split a character list at colons, like repeated strtok with ":" on
locators that have no empty fields. -/
def splitOnColon : List Char → List (List Char)
  | [] => [[]]
  | c :: cs =>
    match splitOnColon cs with
    | f :: rest => if c = ':' then [] :: f :: rest else (c :: f) :: rest
    | [] => if c = ':' then [[], []] else [[c]]

/-- Decimal prefix value, like strtol with base 10 on a token (no sign
handling; a token with no leading digits yields 0, which the zero-size
check then rejects). -/
def strtolDec : List Char → Nat → Nat
  | c :: cs, acc =>
    if '0' ≤ c ∧ c ≤ '9' then strtolDec cs (acc * 10 + (c.toNat - '0'.toNat)) else acc
  | [], acc => acc

/-- Pair up the fields after the partition name into (size, sha1sum)
candidates; a trailing odd field (present exactly when the colon count
is even) is ignored, which is what the C parse loop does since it reads
only (colons - 1) / 2 pairs. -/
def pairUp : List (List Char) → List (Nat × List Char)
  | sz :: hx :: rest => (strtolDec sz 0, hx) :: pairUp rest
  | _ => []

def colonCount (l : List Char) : Nat := l.countP (fun c => c == ':')

/-- LoadMTDContents at the locator-string level.  Note: the C code
counts the colons and, for a malformed count (fewer than 3, or even),
only PRINTS a diagnostic (lines 133-136) and then keeps going; there is
no early return, so no rejection is modelled here either.  parts maps
partition names to raw contents (the mtd driver is an external
collaborator). -/
def LoadMTDFromLocator (sha : Bytes → Digest) (parts : List (List Char × Bytes))
    (locator : List Char) : Option FileContents :=
  match splitOnColon locator with
  | magic :: partname :: rest =>
    if magic = ['M', 'T', 'D'] then
      match parts.lookup partname with
      | some P => LoadMTDContents sha P (pairUp rest)
      | none => none
    else none
  | _ => none

/-! ## Match predicate and canonical minimum (definitions used by the
permutation-invariance analysis) -/

/-- A candidate matches iff its prefix is readable and its digest string
parses to the digest of that prefix. -/
def isMatch (sha : Bytes → Digest) (P : Bytes) (e : Nat × List Char) : Bool :=
  decide (e.1 ≤ P.length) && (ParseSha1 e.2 == some (sha (P.take e.1)))

def minSize : List Nat → Option Nat
  | [] => none
  | x :: xs =>
    match minSize xs with
    | none => some x
    | some m => some (min x m)

/-- Minimum matching candidate size: the canonical, order-insensitive
outcome of the probe. -/
def minMatch (sha : Bytes → Digest) (P : Bytes) (l : List (Nat × List Char)) : Option Nat :=
  minSize ((l.filter (isMatch sha P)).map Prod.fst)

/-! ## Filesystem world model

applypatch reads and writes plain files (by path), the cache backup, and
raw partitions.  The world is the combined durable state.  File loads
are determined by the world; genuinely external effects (the decoders,
statfs, the cache eviction hook, chmod/chown/open/rename/save failures)
are oracle inputs collected in Env. -/

structure FileData where
  data : Bytes
  mode : Nat
  uid : Nat
  gid : Nat
deriving DecidableEq

structure World where
  files : List (String × FileData)
  parts : List (List Char × Bytes)
deriving DecidableEq

def lookupFile : List (String × FileData) → String → Option FileData
  | [], _ => none
  | (k, v) :: es, p => if k = p then some v else lookupFile es p

def setFile (w : World) (p : String) (fd : FileData) : World :=
  ⟨(p, fd) :: w.files.filter (fun e => decide (e.1 ≠ p)), w.parts⟩

def rmFile (w : World) (p : String) : World :=
  ⟨w.files.filter (fun e => decide (e.1 ≠ p)), w.parts⟩

def setPart (w : World) (n : List Char) (b : Bytes) : World :=
  ⟨w.files, (n, b) :: w.parts.filter (fun e => decide (e.1 ≠ n))⟩

/-- Modelled from the spec: the cache backup path constant
CACHE_TEMP_SOURCE lives in applypatch.h, which is not part of this
source tree; the spec gives the well-known path /cache/saved.file. -/
def CACHE_TEMP_SOURCE : String := "/cache/saved.file"

/-- Dispatch test used throughout applypatch.c:
strncmp(name, "MTD:", 4) == 0. -/
def isMTD (s : String) : Bool := decide (s.toList.take 4 = ['M', 'T', 'D', ':'])

/-- Staging file name (applypatch.c lines 721-723): target + ".patch". -/
def stagingName (t : String) : String := t ++ ".patch"

/-- Target aliasing (lines 534-537): the literal "-" means the source. -/
def effTarget (src tgt : String) : String := if tgt = "-" then src else tgt

/-- LoadFileContents (lines 42-79): dispatch on the MTD: prefix, else
read the file from the filesystem; the digest is computed over the data
and the stat metadata is carried along. -/
def LoadFileContents (sha : Bytes → Digest) (w : World) (name : String) : Option FileContents :=
  if isMTD name then LoadMTDFromLocator sha w.parts name.toList
  else
    match lookupFile w.files name with
    | some fd => some ⟨fd.data, sha fd.data, ⟨fd.mode, fd.uid, fd.gid⟩⟩
    | none => none

/-- FindMatchingPatch (lines 387-398): first index whose sha1 string
parses to the given digest; entries that fail to parse are skipped. -/
def FindMatchingPatch (sha1 : Digest) : List (List Char) → Option Nat
  | [] => none
  | s :: rest =>
    if ParseSha1 s = some sha1 then some 0
    else (FindMatchingPatch sha1 rest).map (· + 1)

def optAll {α : Type} (p : α → Bool) : Option α → Bool
  | none => true
  | some a => p a

/-- An edify Value: the patch blob with its type tag (VAL_BLOB check,
line 698). -/
structure Value where
  isBlob : Bool
  data : Bytes
deriving DecidableEq

/-- Outcome of one decoder invocation (ApplyBSDiffPatch and
ApplyImagePatch are external collaborators): either the full output
stream pushed to the sink, or a failure after pushing a partial
stream. -/
inductive DecodeOutcome
  | ok (out : Bytes)
  | err (written : Bytes)
deriving DecidableEq

/-- Oracle inputs for one applypatch invocation.  decode1/decode2 are
the decoder outcomes of the first and second pass of the retry loop;
statfs1 is the (block size, free blocks) answer of the statfs on
target_fs during the first pass, none meaning the call failed; the
remaining flags report success of the corresponding external calls. -/
structure Env where
  decode1 : DecodeOutcome
  decode2 : DecodeOutcome
  statfs1 : Option (Nat × Nat)
  cacheOk : Bool
  saveOk : Bool
  openOk : Bool
  chmodOk : Bool
  chownOk : Bool
  renameOk : Bool
  mtdWriteOk : Bool
deriving DecidableEq

structure RunResult where
  code : Nat
  world : World
deriving DecidableEq

/-- The source material chosen by the triage step: source_to_use, the
patch value, whether the original source (rather than the cache copy)
is in use, and the source_file FileContents struct that the later
backup steps reference. -/
structure Choice where
  srcUse : FileContents
  v : Value
  usingSrc : Bool
  srcFileOpt : Option FileContents
deriving DecidableEq

inductive Triage
  | exitCode (c : Nat)
  | go (ch : Choice)
deriving DecidableEq

/-- Source acquisition (lines 562-569): reload from the source locator
when the target load failed or the two locators differ, else keep the
bytes already loaded from the target. -/
def sourceAcq (sha : Bytes → Digest) (w : World) (src tgt : String)
    (tload : Option FileContents) : Option FileContents :=
  if tload = none ∨ tgt ≠ src then LoadFileContents sha w src else tload

/-- Cache fallback (lines 579-600): load the cache backup; accept its
digest match only at a strictly positive index (the to_use > 0 test at
line 591). -/
def cacheFallback (sha : Bytes → Digest) (w : World) (pstrs : List (List Char))
    (pdata : List Value) (srcFile : Option FileContents) : Triage :=
  match LoadFileContents sha w CACHE_TEMP_SOURCE with
  | none => .exitCode 1
  | some cf =>
    match FindMatchingPatch cf.sha1 pstrs with
    | some j => if 0 < j then .go ⟨cf, pdata.getD j ⟨false, []⟩, false, srcFile⟩ else .exitCode 1
    | none => .exitCode 1

/-- Source triage (lines 571-600): use the source when its digest
matches any entry (to_use >= 0), else fall back to the cache copy. -/
def triageSource (sha : Bytes → Digest) (w : World) (src tgt : String)
    (pstrs : List (List Char)) (pdata : List Value) (tload : Option FileContents) : Triage :=
  match sourceAcq sha w src tgt tload with
  | some sf =>
    match FindMatchingPatch sf.sha1 pstrs with
    | some i => .go ⟨sf, pdata.getD i ⟨false, []⟩, true, some sf⟩
    | none => cacheFallback sha w pstrs pdata (some sf)
  | none => cacheFallback sha w pstrs pdata none

/-- Front end of applypatch (lines 551-600): early-exit check on the
target load, then triage. -/
def triage (sha : Bytes → Digest) (w : World) (src tgt : String)
    (pstrs : List (List Char)) (pdata : List Value) (td : Digest) : Triage :=
  match LoadFileContents sha w tgt with
  | some sf =>
    if sf.sha1 = td then .exitCode 0
    else triageSource sha w src tgt pstrs pdata (some sf)
  | none => triageSource sha w src tgt pstrs pdata none

/-- FreeSpaceForFile (lines 480-487): block size times free blocks on
success; on statfs error the C function returns -1 through its size_t
return type, i.e. 2^32 - 1 on a 32-bit build. -/
def FreeSpaceForFile (r : Option (Nat × Nat)) : Nat :=
  match r with
  | none => 2 ^ 32 - 1
  | some (bsize, bfree) => bsize * bfree % 2 ^ 32

/-- The enough-space test of lines 648-650: free_space > 256 KiB and
free_space > target_size * 3 / 2, in 32-bit size_t arithmetic. -/
def enoughSpace (free tsize : Nat) : Bool :=
  decide (262144 < free) && decide (tsize * 3 % 2 ^ 32 / 2 < free)

/-- SaveFileContents of the source into the cache backup (used at lines
638 and 677).  When the triage selected the cache copy, the C code
passes the freed source_file struct; we model that undefined save as
writing junk. -/
def saveCache (w : World) (sfo : Option FileContents) : World :=
  match sfo with
  | some sf => setFile w CACHE_TEMP_SOURCE ⟨sf.data, sf.st.mode, sf.st.uid, sf.st.gid⟩
  | none => setFile w CACHE_TEMP_SOURCE ⟨[], 0, 0, 0⟩

/-- Filesystem-target space management (lines 645-687), with the
enough-space boolean already computed. -/
def spaceFS (env : Env) (w : World) (src : String) (usingSrc : Bool)
    (sfo : Option FileContents) (madeCopy : Bool) (enough : Bool) (retryAtStart : Nat) :
    Except RunResult (World × Nat × Bool) :=
  if !enough && usingSrc then
    if isMTD src then .error ⟨1, w⟩
    else if !env.cacheOk then .error ⟨1, w⟩
    else if !env.saveOk then .error ⟨1, w⟩
    else .ok (rmFile (saveCache w sfo) src, if enough then retryAtStart else 0, true)
  else .ok (w, if enough then retryAtStart else 0, madeCopy)

/-- Space management at the top of each pass of the retry loop (lines
626-687).  Returns either an early RunResult, or the new world, the new
retry counter and the made_copy flag. -/
def spacePhase (env : Env) (w : World) (src tgt : String) (tsize : Nat)
    (usingSrc : Bool) (sfo : Option FileContents) (retryAtStart : Nat) (madeCopy : Bool) :
    Except RunResult (World × Nat × Bool) :=
  if isMTD tgt then
    if !env.cacheOk then .error ⟨1, w⟩
    else if !env.saveOk then .error ⟨1, w⟩
    else .ok (saveCache w sfo, 0, true)
  else
    spaceFS env w src usingSrc sfo madeCopy
      (if 0 < retryAtStart then enoughSpace (FreeSpaceForFile env.statfs1) tsize else false)
      retryAtStart

def bsdiffMagic : Bytes := [66, 83, 68, 73, 70, 70, 52, 48]

def imgdiffMagic : Bytes := [73, 77, 71, 68, 73, 70, 70, 50]

/-- Patch header dispatch (lines 742-753): at least 8 bytes and one of
the two known magics; anything else is the unknown-patch-format error. -/
def magicOk (v : Value) : Bool :=
  decide (8 ≤ v.data.length) &&
    (decide (v.data.take 8 = bsdiffMagic) || decide (v.data.take 8 = imgdiffMagic))

/-- Result of one pass of the do-while loop: an early return, a
successful decode (break), or a failure with retry budget left (staging
file unlinked, loop again). -/
inductive PassOutcome
  | ret (r : RunResult)
  | ok (w : World) (out : Bytes) (madeCopy : Bool)
  | again (w : World) (madeCopy : Bool)
deriving DecidableEq

def PassOutcome.world : PassOutcome → World
  | .ret r => r.world
  | .ok w _ _ => w
  | .again w _ => w

/-- One pass of the retry loop (lines 622-774): space management, the
blob check, sink setup (the staging file is created before the header
check), the magic dispatch, the decode, and the failure/retry logic.
Note the C code returns on a failed decode with retry == 0 BEFORE the
unlink(outname) at lines 767-769, so the staging file is removed only
in the retry branch. -/
def decodePhase (env : Env) (w1 : World) (tgt : String) (tsize : Nat) (ch : Choice)
    (retry1 : Nat) (mc1 : Bool) (dec : DecodeOutcome) : PassOutcome :=
  if !ch.v.isBlob then .ret ⟨1, w1⟩
  else if isMTD tgt then
    if magicOk ch.v then
      match dec with
      | .ok out => if out.length ≤ tsize then .ok w1 out mc1 else .ret ⟨1, w1⟩
      | .err _ => .ret ⟨1, w1⟩
    else .ret ⟨1, w1⟩
  else
    if !env.openOk then .ret ⟨1, w1⟩
    else if magicOk ch.v then
      match dec with
      | .ok out =>
        .ok (setFile (setFile w1 (stagingName tgt) ⟨[], 0, 0, 0⟩) (stagingName tgt)
              ⟨out, 0, 0, 0⟩) out mc1
      | .err written =>
        if retry1 = 0 then
          .ret ⟨1, setFile (setFile w1 (stagingName tgt) ⟨[], 0, 0, 0⟩) (stagingName tgt)
                ⟨written, 0, 0, 0⟩⟩
        else
          .again (rmFile (setFile (setFile w1 (stagingName tgt) ⟨[], 0, 0, 0⟩)
                  (stagingName tgt) ⟨written, 0, 0, 0⟩) (stagingName tgt)) mc1
    else .ret ⟨1, setFile w1 (stagingName tgt) ⟨[], 0, 0, 0⟩⟩

def runPass (env : Env) (w : World) (src tgt : String) (tsize : Nat) (ch : Choice)
    (retryAtStart : Nat) (dec : DecodeOutcome) (madeCopy : Bool) : PassOutcome :=
  match spacePhase env w src tgt tsize ch.usingSrc ch.srcFileOpt retryAtStart madeCopy with
  | .error r => .ret r
  | .ok (w1, retry1, mc1) => decodePhase env w1 tgt tsize ch retry1 mc1 dec

/-- Partition name extraction of WriteToMTDPartition (lines 299-310):
the text between the first and second colon. -/
def mtdPartName (t : String) : Option (List Char) :=
  match splitOnColon t.toList with
  | _ :: name :: _ => some name
  | _ => none

/-- WriteToMTDPartition (lines 297-351): resolve the partition, then
write all bytes and erase the remaining blocks; env.mtdWriteOk reports
success of that external sequence. -/
def WriteToMTDPartition (env : Env) (w : World) (data : Bytes) (target : String) :
    Option World :=
  match mtdPartName target with
  | some name =>
    match w.parts.lookup name with
    | some _ => if env.mtdWriteOk then some (setPart w name data) else none
    | none => none
  | none => none

def chmodFile (w : World) (p : String) (m : Nat) : World :=
  match lookupFile w.files p with
  | some fd => setFile w p ⟨fd.data, m, fd.uid, fd.gid⟩
  | none => w

def chownFile (w : World) (p : String) (u g : Nat) : World :=
  match lookupFile w.files p with
  | some fd => setFile w p ⟨fd.data, fd.mode, u, g⟩
  | none => w

def renameFile (w : World) (a b : String) : World :=
  match lookupFile w.files a with
  | some fd => setFile (rmFile w a) b fd
  | none => w

/-- Verify and commit (lines 776-815): compare the digest of the decoder
output with target_sha1 (a mismatch returns non-zero WITHOUT touching
the staging file); then either write the memory buffer to the MTD
partition, or chmod/chown the staging file to the stat of the used
source and rename it onto the target; finally unlink the cache backup
iff this invocation created it. -/
def verifyCommit (sha : Bytes → Digest) (env : Env) (w : World) (tgt : String)
    (tsha : Digest) (out : Bytes) (srcStat : StatInfo) (madeCopy : Bool) : RunResult :=
  if sha out ≠ tsha then ⟨1, w⟩
  else if isMTD tgt then
    match WriteToMTDPartition env w out tgt with
    | some w1 => ⟨0, if madeCopy then rmFile w1 CACHE_TEMP_SOURCE else w1⟩
    | none => ⟨1, w⟩
  else if !env.chmodOk then ⟨1, w⟩
  else if !env.chownOk then ⟨1, chmodFile w (stagingName tgt) srcStat.mode⟩
  else if !env.renameOk then
    ⟨1, chownFile (chmodFile w (stagingName tgt) srcStat.mode) (stagingName tgt)
        srcStat.uid srcStat.gid⟩
  else
    ⟨0, if madeCopy then
          rmFile (renameFile (chownFile (chmodFile w (stagingName tgt) srcStat.mode)
            (stagingName tgt) srcStat.uid srcStat.gid) (stagingName tgt) tgt) CACHE_TEMP_SOURCE
        else
          renameFile (chownFile (chmodFile w (stagingName tgt) srcStat.mode)
            (stagingName tgt) srcStat.uid srcStat.gid) (stagingName tgt) tgt⟩

/-- Second pass of the retry loop: it starts with retry already 0, so a
decode failure there is final (the again outcome is unreachable and is
mapped to the same failure result). -/
def applypatchPass2 (sha : Bytes → Digest) (env : Env) (w1 : World) (src tgt : String)
    (tsha : Digest) (tsize : Nat) (ch : Choice) (mc : Bool) : RunResult :=
  match runPass env w1 src tgt tsize ch 0 env.decode2 mc with
  | .ret r => r
  | .ok w2 out mc2 => verifyCommit sha env w2 tgt tsha out ch.srcUse.st mc2
  | .again w2 _ => ⟨1, w2⟩

/-- The do-while retry loop (lines 602-774) followed by verify/commit:
at most two passes. -/
def applypatchLoop (sha : Bytes → Digest) (env : Env) (w : World) (src tgt : String)
    (tsha : Digest) (tsize : Nat) (ch : Choice) : RunResult :=
  match runPass env w src tgt tsize ch 1 env.decode1 false with
  | .ret r => r
  | .ok w1 out mc => verifyCommit sha env w1 tgt tsha out ch.srcUse.st mc
  | .again w1 mc => applypatchPass2 sha env w1 src tgt tsha tsize ch mc

/-- applypatch (lines 525-816): alias the target, parse the target
digest, run the early-exit check and source triage, then the patching
loop. -/
def applypatch (sha : Bytes → Digest) (env : Env) (w : World)
    (src tgtf : String) (tshaStr : List Char) (tsize : Nat)
    (pstrs : List (List Char)) (pdata : List Value) : RunResult :=
  match ParseSha1 tshaStr with
  | none => ⟨1, w⟩
  | some td =>
    match triage sha w src (effTarget src tgtf) pstrs pdata td with
    | .exitCode c => ⟨c, w⟩
    | .go ch => applypatchLoop sha env w src (effTarget src tgtf) td tsize ch

/-! ## Sorting lemmas -/

theorem insertBySize_perm (c : Nat × List Char) (l : List (Nat × List Char)) :
    (insertBySize c l).Perm (c :: l) := by
  induction l with
  | nil => exact List.Perm.refl _
  | cons d ds ih =>
    by_cases h : c.1 ≤ d.1
    · simp [insertBySize, h]
    · simp only [insertBySize, if_neg h]
      exact (ih.cons d).trans (List.Perm.swap c d ds)

theorem sortBySize_perm (l : List (Nat × List Char)) : (sortBySize l).Perm l := by
  induction l with
  | nil => exact List.Perm.refl _
  | cons c cs ih => exact (insertBySize_perm c (sortBySize cs)).trans (ih.cons c)

theorem mem_insertBySize {x c : Nat × List Char} {l : List (Nat × List Char)}
    (h : x ∈ insertBySize c l) : x = c ∨ x ∈ l := by
  have := (insertBySize_perm c l).mem_iff.mp h
  simpa using this

theorem insertBySize_pairwise (c : Nat × List Char) {l : List (Nat × List Char)}
    (h : List.Pairwise (fun a b => a.1 ≤ b.1) l) :
    List.Pairwise (fun a b => a.1 ≤ b.1) (insertBySize c l) := by
  induction l with
  | nil => simp [insertBySize]
  | cons d ds ih =>
    rcases List.pairwise_cons.mp h with ⟨hd, hds⟩
    by_cases hc : c.1 ≤ d.1
    · simp only [insertBySize, if_pos hc]
      refine List.pairwise_cons.mpr ⟨?_, h⟩
      intro b hb
      rcases List.mem_cons.mp hb with rfl | hb
      · exact hc
      · exact hc.trans (hd b hb)
    · simp only [insertBySize, if_neg hc]
      refine List.pairwise_cons.mpr ⟨?_, ih hds⟩
      intro b hb
      rcases mem_insertBySize hb with rfl | hb
      · exact Nat.le_of_not_le hc
      · exact hd b hb

theorem sortBySize_pairwise (l : List (Nat × List Char)) :
    List.Pairwise (fun a b => a.1 ≤ b.1) (sortBySize l) := by
  induction l with
  | nil => simp [sortBySize]
  | cons c cs ih => exact insertBySize_pairwise c ih

/-! ## The probe finds a matching candidate (machinery for the loader claims) -/

theorem probe_finds (sha : Bytes → Digest) (P C : Bytes) (hx : List Char)
    (hhx : ParseSha1 hx = some (sha C)) (htake : P.take C.length = C) :
    ∀ (l : List (Nat × List Char)) (pos : Nat),
      List.Pairwise (fun a b => a.1 ≤ b.1) l →
      (C.length, hx) ∈ l →
      (∀ e ∈ l, pos ≤ e.1) →
      (∀ e ∈ l, e.1 ≤ C.length → (ParseSha1 e.2).isSome = true) →
      (∀ e ∈ l, e.1 < C.length → ParseSha1 e.2 ≠ some (sha (P.take e.1))) →
      probe sha P pos l = some C.length := by
  have hCP : C.length ≤ P.length := by
    have h0 := congrArg List.length htake
    rw [List.length_take] at h0
    exact min_eq_left_iff.mp h0
  intro l
  induction l with
  | nil => intro pos _ hmem; cases hmem
  | cons e rest ih =>
    intro pos hpw hmem hlow hparse hnom
    obtain ⟨s, d⟩ := e
    rcases List.pairwise_cons.mp hpw with ⟨hhead, hrest⟩
    have hpos : pos ≤ s := hlow (s, d) (List.mem_cons_self _ _)
    have hsC : s ≤ C.length := by
      rcases List.mem_cons.mp hmem with heq | hmem2
      · cases heq; exact Nat.le_refl _
      · exact hhead _ hmem2
    have hsP : s ≤ P.length := hsC.trans hCP
    have hps : (ParseSha1 d).isSome = true :=
      hparse (s, d) (List.mem_cons_self _ _) hsC
    obtain ⟨d0, hd0⟩ := Option.isSome_iff_exists.mp hps
    simp only [probe, if_pos hpos, if_pos hsP, hd0]
    rcases Nat.lt_or_ge s C.length with hlt | hge
    · have hne : d0 ≠ sha (P.take s) := by
        intro hcontra
        exact hnom (s, d) (List.mem_cons_self _ _) hlt (by rw [hd0, hcontra])
      rw [if_neg hne]
      have hmem2 : (C.length, hx) ∈ rest := by
        rcases List.mem_cons.mp hmem with heq | hmem2
        · exfalso; cases heq; exact Nat.lt_irrefl _ hlt
        · exact hmem2
      exact ih s hrest hmem2 (fun e he => hhead e he)
        (fun e he h1 => hparse e (List.mem_cons_of_mem _ he) h1)
        (fun e he h1 => hnom e (List.mem_cons_of_mem _ he) h1)
    · have hsEq : s = C.length := Nat.le_antisymm hsC hge
      by_cases hb : d0 = sha (P.take s)
      · rw [if_pos hb, hsEq]
      · rw [if_neg hb]
        have hmem2 : (C.length, hx) ∈ rest := by
          rcases List.mem_cons.mp hmem with heq | hmem2
          · exfalso
            apply hb
            have hxd : hx = d := congrArg Prod.snd heq
            rw [hxd] at hhx
            rw [hhx] at hd0
            have hd0C : d0 = sha C := Option.some_inj.mp hd0.symm
            rw [hd0C, hsEq, htake]
          · exact hmem2
        exact ih s hrest hmem2 (fun e he => hhead e he)
          (fun e he h1 => hparse e (List.mem_cons_of_mem _ he) h1)
          (fun e he h1 => hnom e (List.mem_cons_of_mem _ he) h1)

/-! ## Canonical characterization of the probe under parseable digests -/

theorem minSize_perm {l1 l2 : List Nat} (h : l1.Perm l2) : minSize l1 = minSize l2 := by
  induction h with
  | nil => rfl
  | cons x _ ih => simp only [minSize, ih]
  | swap x y l =>
    cases h0 : minSize l with
    | none => simp [minSize, h0, Nat.min_comm]
    | some m => simp [minSize, h0, Nat.min_left_comm]
  | trans _ _ ih1 ih2 => exact ih1.trans ih2

theorem minSize_mem : ∀ {xs : List Nat} {m : Nat}, minSize xs = some m → m ∈ xs := by
  intro xs
  induction xs with
  | nil => intro m h; cases h
  | cons x ys ih =>
    intro m h
    cases h0 : minSize ys with
    | none =>
      rw [minSize, h0] at h
      exact (Option.some_inj.mp h) ▸ List.mem_cons_self _ _
    | some k =>
      rw [minSize, h0] at h
      have hm : m = min x k := (Option.some_inj.mp h).symm
      rcases Nat.le_total x k with hle | hle
      · rw [hm, Nat.min_eq_left hle]; exact List.mem_cons_self _ _
      · rw [hm, Nat.min_eq_right hle]; exact List.mem_cons_of_mem _ (ih h0)

theorem minSize_cons_of_le {x : Nat} {xs : List Nat} (h : ∀ y ∈ xs, x ≤ y) :
    minSize (x :: xs) = some x := by
  cases h0 : minSize xs with
  | none => simp [minSize, h0]
  | some m =>
    have : x ≤ m := h m (minSize_mem h0)
    simp [minSize, h0, Nat.min_eq_left this]

theorem probe_eq_minMatch (sha : Bytes → Digest) (P : Bytes) :
    ∀ (l : List (Nat × List Char)) (pos : Nat),
      List.Pairwise (fun a b => a.1 ≤ b.1) l →
      (∀ e ∈ l, (ParseSha1 e.2).isSome = true) →
      (∀ e ∈ l, pos ≤ e.1) →
      probe sha P pos l = minMatch sha P l := by
  intro l
  induction l with
  | nil => intro pos _ _ _; rfl
  | cons e rest ih =>
    intro pos hpw hparse hlow
    obtain ⟨s, d⟩ := e
    rcases List.pairwise_cons.mp hpw with ⟨hhead, hrest⟩
    have hpos : pos ≤ s := hlow (s, d) (List.mem_cons_self _ _)
    have hps : (ParseSha1 d).isSome = true := hparse (s, d) (List.mem_cons_self _ _)
    obtain ⟨d0, hd0⟩ := Option.isSome_iff_exists.mp hps
    by_cases hsP : s ≤ P.length
    · simp only [probe, if_pos hpos, if_pos hsP, hd0]
      by_cases hb : d0 = sha (P.take s)
      · rw [if_pos hb]
        have hmatch : isMatch sha P (s, d) = true := by
          simp [isMatch, hsP, hd0, hb]
        rw [minMatch, List.filter_cons_of_pos hmatch, List.map_cons]
        rw [minSize_cons_of_le]
        intro y hy
        rcases List.mem_map.mp hy with ⟨e2, he2, rfl⟩
        exact hhead e2 (List.mem_of_mem_filter he2)
      · rw [if_neg hb]
        have hmatch : isMatch sha P (s, d) = false := by
          simp [isMatch, hsP, hd0]
          intro hcontra
          exact absurd hcontra hb
        rw [minMatch, List.filter_cons_of_neg (by simp [hmatch])]
        exact ih s hrest (fun e2 he2 => hparse e2 (List.mem_cons_of_mem _ he2))
          (fun e2 he2 => hhead e2 he2)
    · simp only [probe, if_pos hpos, if_neg hsP]
      have hall : (((s, d) :: rest).filter (isMatch sha P)) = [] := by
        rw [List.filter_eq_nil_iff]
        intro a ha
        have haP : ¬ a.1 ≤ P.length := by
          rcases List.mem_cons.mp ha with rfl | ha2
          · exact hsP
          · intro hcontra
            exact hsP ((hhead a ha2).trans hcontra)
        simp [isMatch, haP]
      rw [minMatch, hall]
      rfl

/-- Canonical form of LoadMTDContents when every candidate digest
parses: the result depends only on which sizes match, through the
minimum matching size. -/
theorem loadMTD_canonical (sha : Bytes → Digest) (P : Bytes)
    (cands : List (Nat × List Char))
    (hparse : ∀ e ∈ cands, (ParseSha1 e.2).isSome = true) :
    LoadMTDContents sha P cands =
      if cands.isEmpty || cands.any (fun c => c.1 == 0) then none
      else
        match minMatch sha P cands with
        | some s => some ⟨P.take s, sha (P.take s), ⟨0o644, 0, 0⟩⟩
        | none => none := by
  rw [LoadMTDContents]
  by_cases hc : (cands.isEmpty || cands.any (fun c => c.1 == 0)) = true
  · rw [if_pos hc, if_pos hc]
  · rw [if_neg hc, if_neg hc]
    have hperm := sortBySize_perm cands
    have h1 : probe sha P 0 (sortBySize cands) = minMatch sha P (sortBySize cands) :=
      probe_eq_minMatch sha P (sortBySize cands) 0 (sortBySize_pairwise cands)
        (fun e he => hparse e (hperm.mem_iff.mp he))
        (fun e _ => Nat.zero_le _)
    have h2 : minMatch sha P (sortBySize cands) = minMatch sha P cands :=
      minSize_perm ((hperm.filter (isMatch sha P)).map Prod.fst)
    rw [h1, h2]

/-! ## World lemmas -/

theorem lookupFile_filter_ne (l : List (String × FileData)) (p q : String) (h : q ≠ p) :
    lookupFile (l.filter (fun e => decide (e.1 ≠ p))) q = lookupFile l q := by
  induction l with
  | nil => rfl
  | cons e es ih =>
    obtain ⟨k, v⟩ := e
    by_cases hk : k = p
    · subst hk
      rw [List.filter_cons_of_neg (by simp)]
      rw [ih, lookupFile, if_neg (fun hc => h hc.symm)]
    · rw [List.filter_cons_of_pos (by simpa using hk)]
      rw [lookupFile, lookupFile]
      by_cases hq : k = q
      · rw [if_pos hq, if_pos hq]
      · rw [if_neg hq, if_neg hq, ih]

theorem lookupFile_filter_self (l : List (String × FileData)) (p : String) :
    lookupFile (l.filter (fun e => decide (e.1 ≠ p))) p = none := by
  induction l with
  | nil => rfl
  | cons e es ih =>
    obtain ⟨k, v⟩ := e
    by_cases hk : k = p
    · subst hk
      rw [List.filter_cons_of_neg (by simp)]
      exact ih
    · rw [List.filter_cons_of_pos (by simpa using hk), lookupFile, if_neg hk]
      exact ih

theorem lookup_setFile_self (w : World) (p : String) (fd : FileData) :
    lookupFile (setFile w p fd).files p = some fd := by
  show lookupFile ((p, fd) :: _) p = some fd
  rw [lookupFile, if_pos rfl]

theorem lookup_setFile_ne (w : World) (p q : String) (fd : FileData) (h : q ≠ p) :
    lookupFile (setFile w p fd).files q = lookupFile w.files q := by
  rw [setFile]
  show lookupFile ((p, fd) :: _) q = _
  rw [lookupFile, if_neg (fun hc : p = q => h hc.symm)]
  exact lookupFile_filter_ne w.files p q h

theorem lookup_rmFile_self (w : World) (p : String) :
    lookupFile (rmFile w p).files p = none :=
  lookupFile_filter_self w.files p

theorem lookup_rmFile_ne (w : World) (p q : String) (h : q ≠ p) :
    lookupFile (rmFile w p).files q = lookupFile w.files q :=
  lookupFile_filter_ne w.files p q h

theorem stagingName_ne (t : String) : t ≠ stagingName t := by
  intro h
  have hl := congrArg String.length h
  have h6 : (".patch" : String).length = 6 := rfl
  rw [stagingName, String.length_append, h6] at hl
  omega

theorem lookup_saveCache_ne (w : World) (sfo : Option FileContents) (q : String)
    (h : q ≠ CACHE_TEMP_SOURCE) :
    lookupFile (saveCache w sfo).files q = lookupFile w.files q := by
  cases sfo with
  | none => exact lookup_setFile_ne w _ q _ h
  | some sf => exact lookup_setFile_ne w _ q _ h

theorem lookup_chmodFile_ne (w : World) (p q : String) (m : Nat) (h : q ≠ p) :
    lookupFile (chmodFile w p m).files q = lookupFile w.files q := by
  rw [chmodFile]
  cases lookupFile w.files p with
  | none => rfl
  | some fd => exact lookup_setFile_ne w p q _ h

theorem lookup_chownFile_ne (w : World) (p q : String) (u g : Nat) (h : q ≠ p) :
    lookupFile (chownFile w p u g).files q = lookupFile w.files q := by
  rw [chownFile]
  cases lookupFile w.files p with
  | none => rfl
  | some fd => exact lookup_setFile_ne w p q _ h

/-! ## Frame lemmas for the patching loop -/

theorem spaceFS_error_world (env : Env) (w : World) (src : String) (usingSrc : Bool)
    (sfo : Option FileContents) (mc : Bool) (enough : Bool) (r0 : Nat) (r : RunResult)
    (h : spaceFS env w src usingSrc sfo mc enough r0 = .error r) : r.world = w := by
  rw [spaceFS] at h
  split_ifs at h <;> (cases h; rfl)

theorem spacePhase_error_world (env : Env) (w : World) (src tgt : String) (tsize : Nat)
    (usingSrc : Bool) (sfo : Option FileContents) (r0 : Nat) (mc : Bool) (r : RunResult)
    (h : spacePhase env w src tgt tsize usingSrc sfo r0 mc = .error r) : r.world = w := by
  rw [spacePhase] at h
  split_ifs at h <;> first
    | (cases h; rfl)
    | exact spaceFS_error_world env w src usingSrc sfo mc _ r0 r h

theorem spaceFS_ok_frame (env : Env) (w : World) (src : String) (usingSrc : Bool)
    (sfo : Option FileContents) (mc : Bool) (enough : Bool) (r0 : Nat)
    (w1 : World) (r1 : Nat) (mc1 : Bool) (q : String)
    (hq : q ≠ CACHE_TEMP_SOURCE)
    (h : spaceFS env w src usingSrc sfo mc enough r0 = .ok (w1, r1, mc1)) :
    lookupFile w1.files q = lookupFile w.files q ∨
      (lookupFile w1.files q = none ∧ q = src) := by
  rw [spaceFS] at h
  split_ifs at h <;> try cases h
  all_goals try (left; rfl)
  all_goals
    by_cases hs : q = src
  all_goals try (right; refine ⟨?_, hs⟩; rw [hs]; exact lookup_rmFile_self _ src)
  all_goals
    left
    rw [lookup_rmFile_ne _ src q hs]
    exact lookup_saveCache_ne w sfo q hq

theorem spacePhase_ok_frame (env : Env) (w : World) (src tgt : String) (tsize : Nat)
    (usingSrc : Bool) (sfo : Option FileContents) (r0 : Nat) (mc : Bool)
    (w1 : World) (r1 : Nat) (mc1 : Bool) (q : String)
    (hq : q ≠ CACHE_TEMP_SOURCE)
    (h : spacePhase env w src tgt tsize usingSrc sfo r0 mc = .ok (w1, r1, mc1)) :
    lookupFile w1.files q = lookupFile w.files q ∨
      (lookupFile w1.files q = none ∧ q = src) := by
  rw [spacePhase] at h
  split_ifs at h <;> try cases h
  all_goals first
    | (left; exact lookup_saveCache_ne w sfo q hq)
    | exact spaceFS_ok_frame env w src usingSrc sfo mc _ r0 w1 r1 mc1 q hq h

theorem decodePhase_frame (env : Env) (w1 : World) (tgt : String) (tsize : Nat) (ch : Choice)
    (retry1 : Nat) (mc1 : Bool) (dec : DecodeOutcome) (q : String)
    (hq2 : q ≠ stagingName tgt) :
    lookupFile (decodePhase env w1 tgt tsize ch retry1 mc1 dec).world.files q =
      lookupFile w1.files q := by
  have hset : ∀ (W : World) (fd : FileData),
      lookupFile (setFile W (stagingName tgt) fd).files q = lookupFile W.files q :=
    fun W fd => lookup_setFile_ne W _ q fd hq2
  have hrm : ∀ (W : World),
      lookupFile (rmFile W (stagingName tgt)).files q = lookupFile W.files q :=
    fun W => lookup_rmFile_ne W _ q hq2
  cases dec with
  | ok out =>
    rw [decodePhase]
    split_ifs <;> simp only [PassOutcome.world, hset, hrm]
  | err written =>
    rw [decodePhase]
    split_ifs <;> simp only [PassOutcome.world, hset, hrm]

theorem runPass_frame (env : Env) (w : World) (src tgt : String) (tsize : Nat) (ch : Choice)
    (r0 : Nat) (dec : DecodeOutcome) (mc : Bool) (q : String)
    (hq1 : q ≠ CACHE_TEMP_SOURCE) (hq2 : q ≠ stagingName tgt) :
    lookupFile (runPass env w src tgt tsize ch r0 dec mc).world.files q =
        lookupFile w.files q ∨
      (lookupFile (runPass env w src tgt tsize ch r0 dec mc).world.files q = none ∧
        q = src) := by
  rw [runPass]
  rcases hsp : spacePhase env w src tgt tsize ch.usingSrc ch.srcFileOpt r0 mc with
    r | ⟨w1, r1, mc1⟩
  · left
    show lookupFile r.world.files q = lookupFile w.files q
    rw [spacePhase_error_world env w src tgt tsize ch.usingSrc ch.srcFileOpt r0 mc r hsp]
  · have hfr := spacePhase_ok_frame env w src tgt tsize ch.usingSrc ch.srcFileOpt r0 mc
      w1 r1 mc1 q hq1 hsp
    show lookupFile (decodePhase env w1 tgt tsize ch r1 mc1 dec).world.files q =
        lookupFile w.files q ∨
      (lookupFile (decodePhase env w1 tgt tsize ch r1 mc1 dec).world.files q = none ∧ q = src)
    rw [decodePhase_frame env w1 tgt tsize ch r1 mc1 dec q hq2]
    exact hfr

theorem verifyCommit_frame (sha : Bytes → Digest) (env : Env) (w : World) (tgt : String)
    (tsha : Digest) (out : Bytes) (srcStat : StatInfo) (mc : Bool) (q : String)
    (hq : q ≠ stagingName tgt)
    (hcode : (verifyCommit sha env w tgt tsha out srcStat mc).code ≠ 0) :
    lookupFile (verifyCommit sha env w tgt tsha out srcStat mc).world.files q =
      lookupFile w.files q := by
  rw [verifyCommit] at hcode ⊢
  split_ifs at hcode ⊢
  all_goals first
    | rfl
    | exact absurd rfl hcode
    | exact lookup_chmodFile_ne w _ q _ hq
    | (rw [lookup_chownFile_ne _ _ q _ _ hq]; exact lookup_chmodFile_ne w _ q _ hq)
    | (cases hw : WriteToMTDPartition env w out tgt with
       | none => rfl
       | some w1 => rw [hw] at hcode; exact absurd rfl hcode)

/-! ## Claim theorems for the digest parser and the partition loader -/

/-- C2: against both the claim and the doc comment of ParseSha1 (which
promises that a string of the form digest:anything is accepted), the
code requires the character right after the 40 hex digits to be the
string terminator: it accepts exactly 40 hex digits and nothing else.
The first conjunct evaluates the accepted form, the second shows the
suffixed form of the claim being rejected. -/
theorem parseSha1_requires_exact_forty :
    ParseSha1 (String.toList "0000000000000000000000000000000000000000") =
        some (List.replicate 20 0) ∧
      ParseSha1 (String.toList "0000000000000000000000000000000000000000:t") = none := by
  constructor
  · decide
  · decide

/-- C4: a partition locator with an even colon count (here 4) violates
the spec invariant, yet the loader does not reject it: the malformed
count is only printed and parsing continues, and with a matching
candidate the load even succeeds. -/
theorem loadMTD_malformed_locator_accepted :
    colonCount (String.toList "MTD:p:1:0900000000000000000000000000000000000000:junk") % 2
        = 0 ∧
      LoadMTDFromLocator testSha [(['p'], [9])]
          (String.toList "MTD:p:1:0900000000000000000000000000000000000000:junk") =
        some ⟨[9], testSha [9], ⟨0o644, 0, 0⟩⟩ := by
  constructor
  · decide
  · decide

/-- C5 counterexample: a candidate list containing the correct
(length, digest-of-contents) pair on which the load nonetheless fails,
because a smaller candidate probed first has an unparseable digest
string and ParseSha1 failure aborts the whole load. -/
theorem loadMTD_candidate_list_cex :
    (2, String.toList "0102000000000000000000000000000000000000") ∈
        ([(1, String.toList "zz"),
          (2, String.toList "0102000000000000000000000000000000000000")] :
          List (Nat × List Char)) ∧
      ParseSha1 (String.toList "0102000000000000000000000000000000000000") =
        some (testSha [1, 2]) ∧
      List.take (List.length ([1, 2] : Bytes)) ([1, 2] : Bytes) = [1, 2] ∧
      LoadMTDContents testSha [1, 2]
          [(1, String.toList "zz"),
           (2, String.toList "0102000000000000000000000000000000000000")] = none := by
  refine ⟨by decide, by decide, by decide, by decide⟩

/-- C5 (amended): the loader returns exactly C when the candidate list
carries the pair (length C, digest of C), all sizes are positive, every
candidate probed no later than that pair has a parseable digest, and no
strictly smaller candidate matches the digest of the corresponding
prefix of the partition. -/
theorem loadMTD_returns_matching_contents (sha : Bytes → Digest) (P C : Bytes)
    (cands : List (Nat × List Char)) (hx : List Char)
    (hmem : (C.length, hx) ∈ cands)
    (hhx : ParseSha1 hx = some (sha C))
    (htake : P.take C.length = C)
    (hpos : ∀ e ∈ cands, 0 < e.1)
    (hparse : ∀ e ∈ cands, e.1 ≤ C.length → (ParseSha1 e.2).isSome = true)
    (hnom : ∀ e ∈ cands, e.1 < C.length → ParseSha1 e.2 ≠ some (sha (P.take e.1))) :
    LoadMTDContents sha P cands = some ⟨C, sha C, ⟨0o644, 0, 0⟩⟩ := by
  rw [LoadMTDContents]
  have hne : cands.isEmpty = false := by
    cases cands with
    | nil => cases hmem
    | cons a l => rfl
  have hz : cands.any (fun c => c.1 == 0) = false := by
    rw [Bool.eq_false_iff]
    intro hcontra
    rcases List.any_eq_true.mp hcontra with ⟨c, hc, hc0⟩
    have h1 := hpos c hc
    have h2 : c.1 = 0 := by simpa using hc0
    omega
  rw [hne, hz]
  have hperm := sortBySize_perm cands
  have hprobe : probe sha P 0 (sortBySize cands) = some C.length :=
    probe_finds sha P C hx hhx htake (sortBySize cands) 0 (sortBySize_pairwise cands)
      (hperm.mem_iff.mpr hmem)
      (fun e _ => Nat.zero_le _)
      (fun e he h1 => hparse e (hperm.mem_iff.mp he) h1)
      (fun e he h1 => hnom e (hperm.mem_iff.mp he) h1)
  rw [hprobe]
  simp only [Bool.or_self, Bool.false_eq_true, if_false]
  rw [htake]

/-- C5 witness: a one-candidate list on which the amended theorem
applies and the loader returns the partition contents. -/
theorem loadMTD_returns_matching_contents_witness :
    ((1, String.toList "0700000000000000000000000000000000000000") ∈
        ([(1, String.toList "0700000000000000000000000000000000000000")] :
          List (Nat × List Char))) ∧
      LoadMTDContents testSha [7]
          [(1, String.toList "0700000000000000000000000000000000000000")] =
        some ⟨[7], testSha [7], ⟨0o644, 0, 0⟩⟩ :=
  ⟨by decide,
    loadMTD_returns_matching_contents testSha [7] [7]
      [(1, String.toList "0700000000000000000000000000000000000000")]
      (String.toList "0700000000000000000000000000000000000000")
      (by decide) (by decide) (by decide) (by decide) (by decide) (by decide)⟩

/-- C6 counterexample: two candidate lists that are permutations of each
other (sharing the size 1 with different digest strings) on which the
loader returns different results: probing the unparseable digest first
aborts the load, probing the matching one first succeeds. -/
theorem loadMTD_order_dependent_cex :
    ([(1, String.toList "zz"),
      (1, String.toList "0500000000000000000000000000000000000000")] :
        List (Nat × List Char)).Perm
        [(1, String.toList "0500000000000000000000000000000000000000"),
         (1, String.toList "zz")] ∧
      LoadMTDContents testSha [5]
          [(1, String.toList "zz"),
           (1, String.toList "0500000000000000000000000000000000000000")] = none ∧
      LoadMTDContents testSha [5]
          [(1, String.toList "0500000000000000000000000000000000000000"),
           (1, String.toList "zz")] =
        some ⟨[5], testSha [5], ⟨0o644, 0, 0⟩⟩ := by
  refine ⟨List.Perm.swap _ _ _, by decide, by decide⟩

/-- C6 (amended): when every candidate digest string parses, the loader
result is invariant under permutation of the candidate list, and the
probe sequence is the ascending sort of the candidate sizes (the sorted
size list is ordered and is a permutation of the given sizes). -/
theorem loadMTD_perm_invariant (sha : Bytes → Digest) (P : Bytes)
    (l1 l2 : List (Nat × List Char)) (hperm : l1.Perm l2)
    (hparse : ∀ e ∈ l1, (ParseSha1 e.2).isSome = true) :
    LoadMTDContents sha P l1 = LoadMTDContents sha P l2 ∧
      List.Pairwise (fun a b : Nat => a ≤ b) ((sortBySize l1).map Prod.fst) ∧
      ((sortBySize l1).map Prod.fst).Perm (l1.map Prod.fst) := by
  refine ⟨?_, ?_, (sortBySize_perm l1).map Prod.fst⟩
  · have hparse2 : ∀ e ∈ l2, (ParseSha1 e.2).isSome = true :=
      fun e he => hparse e (hperm.mem_iff.mpr he)
    rw [loadMTD_canonical sha P l1 hparse, loadMTD_canonical sha P l2 hparse2]
    have hemp : l1.isEmpty = l2.isEmpty := by
      have hlen := hperm.length_eq
      cases l1 <;> cases l2 <;> simp_all
    have hany : (l1.any fun c => c.1 == 0) = (l2.any fun c => c.1 == 0) := by
      cases h2 : l2.any fun c => c.1 == 0 with
      | true =>
        rcases List.any_eq_true.mp h2 with ⟨c, hc, hc0⟩
        exact List.any_eq_true.mpr ⟨c, hperm.mem_iff.mpr hc, hc0⟩
      | false =>
        rw [Bool.eq_false_iff]
        intro hcontra
        rcases List.any_eq_true.mp hcontra with ⟨c, hc, hc0⟩
        rw [Bool.eq_false_iff] at h2
        exact h2 (List.any_eq_true.mpr ⟨c, hperm.mem_iff.mp hc, hc0⟩)
    have hmin : minMatch sha P l1 = minMatch sha P l2 :=
      minSize_perm ((hperm.filter (isMatch sha P)).map Prod.fst)
    rw [hemp, hany, hmin]
  · exact (sortBySize_pairwise l1).map Prod.fst (fun a b hab => hab)

/-- C6 witness: a two-candidate list with parseable digests, its swap,
and the conclusions of the amended theorem. -/
theorem loadMTD_perm_invariant_witness :
    LoadMTDContents testSha [5]
        [(2, String.toList "ffffffffffffffffffffffffffffffffffffffff"),
         (1, String.toList "0500000000000000000000000000000000000000")] =
      LoadMTDContents testSha [5]
        [(1, String.toList "0500000000000000000000000000000000000000"),
         (2, String.toList "ffffffffffffffffffffffffffffffffffffffff")] :=
  (loadMTD_perm_invariant testSha [5]
    [(2, String.toList "ffffffffffffffffffffffffffffffffffffffff"),
     (1, String.toList "0500000000000000000000000000000000000000")]
    [(1, String.toList "0500000000000000000000000000000000000000"),
     (2, String.toList "ffffffffffffffffffffffffffffffffffffffff")]
    (List.Perm.swap _ _ _) (by decide)).1

/-! ## Claim theorems for the patch orchestrator -/

/-- C7: when the target locator loads and its digest equals the parsed
target digest, applypatch returns 0 immediately with the world
untouched: no write to the target, the staging file, or the cache
backup; in particular a rerun after a successful run is a no-op. -/
theorem applypatch_early_exit (sha : Bytes → Digest) (env : Env) (w : World)
    (src tgtf : String) (tshaStr : List Char) (tsize : Nat)
    (pstrs : List (List Char)) (pdata : List Value) (td : Digest) (f : FileContents)
    (hparse : ParseSha1 tshaStr = some td)
    (hload : LoadFileContents sha w (effTarget src tgtf) = some f)
    (hsha : f.sha1 = td) :
    applypatch sha env w src tgtf tshaStr tsize pstrs pdata = ⟨0, w⟩ := by
  simp only [applypatch, hparse, triage, hload, hsha, if_true]

/-- C7 witness: a world whose target file already carries the target
digest; applypatch exits 0 without modifying the world. -/
theorem applypatch_early_exit_witness :
    ParseSha1 (String.toList "0300000000000000000000000000000000000000") =
        some (testSha [3]) ∧
      applypatch testSha
          ⟨DecodeOutcome.ok [], DecodeOutcome.ok [], some (1, 1),
           true, true, true, true, true, true, true⟩
          ⟨[("t", ⟨[3], 420, 0, 0⟩)], []⟩ "s" "t"
          (String.toList "0300000000000000000000000000000000000000") 5 [] [] =
        ⟨0, ⟨[("t", ⟨[3], 420, 0, 0⟩)], []⟩⟩ :=
  ⟨by decide,
    applypatch_early_exit testSha
      ⟨DecodeOutcome.ok [], DecodeOutcome.ok [], some (1, 1),
       true, true, true, true, true, true, true⟩
      ⟨[("t", ⟨[3], 420, 0, 0⟩)], []⟩ "s" "t"
      (String.toList "0300000000000000000000000000000000000000") 5 [] []
      (testSha [3]) ⟨[3], testSha [3], ⟨420, 0, 0⟩⟩
      (by decide) (by decide) (by decide)⟩

/-- C3: in the cache-fallback branch (no loaded source digest matched),
the cache backup is accepted only at a strictly positive match index:
a first match at index 0 makes applypatch return non-zero untouched,
while a match at i > 0 selects patch i and patching proceeds with the
cache copy as source. -/
theorem applypatch_cache_match_index (sha : Bytes → Digest) (env : Env) (w : World)
    (src tgtf : String) (tshaStr : List Char) (tsize : Nat)
    (pstrs : List (List Char)) (pdata : List Value) (td : Digest) (cf : FileContents) (i : Nat)
    (hparse : ParseSha1 tshaStr = some td)
    (hearly : optAll (fun f => decide (f.sha1 ≠ td))
        (LoadFileContents sha w (effTarget src tgtf)) = true)
    (hsrc : optAll (fun sf => (FindMatchingPatch sf.sha1 pstrs).isNone)
        (sourceAcq sha w src (effTarget src tgtf)
          (LoadFileContents sha w (effTarget src tgtf))) = true)
    (hcache : LoadFileContents sha w CACHE_TEMP_SOURCE = some cf)
    (hmatch : FindMatchingPatch cf.sha1 pstrs = some i) :
    (i = 0 → applypatch sha env w src tgtf tshaStr tsize pstrs pdata = ⟨1, w⟩) ∧
      (0 < i →
        applypatch sha env w src tgtf tshaStr tsize pstrs pdata =
          applypatchLoop sha env w src (effTarget src tgtf) td tsize
            ⟨cf, pdata.getD i ⟨false, []⟩, false,
              sourceAcq sha w src (effTarget src tgtf)
                (LoadFileContents sha w (effTarget src tgtf))⟩) := by
  have key : triage sha w src (effTarget src tgtf) pstrs pdata td =
      cacheFallback sha w pstrs pdata
        (sourceAcq sha w src (effTarget src tgtf)
          (LoadFileContents sha w (effTarget src tgtf))) := by
    rw [triage]
    cases hl : LoadFileContents sha w (effTarget src tgtf) with
    | none =>
      show triageSource sha w src (effTarget src tgtf) pstrs pdata none = _
      rw [triageSource]
      cases hs : sourceAcq sha w src (effTarget src tgtf) none with
      | none => rfl
      | some sf =>
        rw [hl, hs] at hsrc
        have hn : FindMatchingPatch sf.sha1 pstrs = none :=
          Option.isNone_iff_eq_none.mp (by simpa [optAll] using hsrc)
        show (match FindMatchingPatch sf.sha1 pstrs with
          | some i => Triage.go ⟨sf, pdata.getD i ⟨false, []⟩, true, some sf⟩
          | none => cacheFallback sha w pstrs pdata (some sf)) = _
        rw [hn]
    | some f =>
      rw [hl] at hearly
      have hne : f.sha1 ≠ td := by simpa [optAll] using hearly
      show (if f.sha1 = td then Triage.exitCode 0
        else triageSource sha w src (effTarget src tgtf) pstrs pdata (some f)) = _
      rw [if_neg hne, triageSource]
      cases hs : sourceAcq sha w src (effTarget src tgtf) (some f) with
      | none => rfl
      | some sf =>
        rw [hl, hs] at hsrc
        have hn : FindMatchingPatch sf.sha1 pstrs = none :=
          Option.isNone_iff_eq_none.mp (by simpa [optAll] using hsrc)
        show (match FindMatchingPatch sf.sha1 pstrs with
          | some i => Triage.go ⟨sf, pdata.getD i ⟨false, []⟩, true, some sf⟩
          | none => cacheFallback sha w pstrs pdata (some sf)) = _
        rw [hn]
  constructor
  · intro h0
    simp only [applypatch, hparse, key, cacheFallback, hcache, hmatch, h0]
    rw [if_neg (Nat.lt_irrefl 0)]
  · intro hp
    simp only [applypatch, hparse, key, cacheFallback, hcache, hmatch, if_pos hp]

/-- C3 witness: source and target absent, the cache backup matching the
patch list at index 1; patching proceeds with patch 1 and the cache
bytes. -/
theorem applypatch_cache_match_index_witness :
    0 < 1 ∧
      applypatch testSha
          ⟨DecodeOutcome.ok [], DecodeOutcome.ok [], some (1, 1),
           true, true, true, true, true, true, true⟩
          ⟨[("/cache/saved.file", ⟨[6], 420, 0, 0⟩)], []⟩ "s3" "t3"
          (String.toList "0000000000000000000000000000000000000000") 5
          [String.toList "ffffffffffffffffffffffffffffffffffffffff",
           String.toList "0600000000000000000000000000000000000000"]
          [⟨true, []⟩, ⟨true, []⟩] =
        applypatchLoop testSha
          ⟨DecodeOutcome.ok [], DecodeOutcome.ok [], some (1, 1),
           true, true, true, true, true, true, true⟩
          ⟨[("/cache/saved.file", ⟨[6], 420, 0, 0⟩)], []⟩ "s3" "t3"
          (List.replicate 20 0) 5
          ⟨⟨[6], testSha [6], ⟨420, 0, 0⟩⟩, ⟨true, []⟩, false, none⟩ :=
  ⟨by decide,
    (applypatch_cache_match_index testSha
      ⟨DecodeOutcome.ok [], DecodeOutcome.ok [], some (1, 1),
       true, true, true, true, true, true, true⟩
      ⟨[("/cache/saved.file", ⟨[6], 420, 0, 0⟩)], []⟩ "s3" "t3"
      (String.toList "0000000000000000000000000000000000000000") 5
      [String.toList "ffffffffffffffffffffffffffffffffffffffff",
       String.toList "0600000000000000000000000000000000000000"]
      [⟨true, []⟩, ⟨true, []⟩] (List.replicate 20 0)
      ⟨[6], testSha [6], ⟨420, 0, 0⟩⟩ 1
      (by decide) (by decide) (by decide) (by decide) (by decide)).2 (by decide)⟩

/-- Frame lemma for the second pass: on a non-zero result, paths other
than the cache backup and the staging file keep their lookup, except
that the source path may have been unlinked. -/
theorem applypatchPass2_frame (sha : Bytes → Digest) (env : Env) (w1 : World)
    (src tgt : String) (tsha : Digest) (tsize : Nat) (ch : Choice) (mc : Bool) (q : String)
    (hq1 : q ≠ CACHE_TEMP_SOURCE) (hq2 : q ≠ stagingName tgt)
    (hfail : (applypatchPass2 sha env w1 src tgt tsha tsize ch mc).code ≠ 0) :
    lookupFile (applypatchPass2 sha env w1 src tgt tsha tsize ch mc).world.files q =
        lookupFile w1.files q ∨
      (lookupFile (applypatchPass2 sha env w1 src tgt tsha tsize ch mc).world.files q =
          none ∧ q = src) := by
  have hfr := runPass_frame env w1 src tgt tsize ch 0 env.decode2 mc q hq1 hq2
  rcases hp2 : runPass env w1 src tgt tsize ch 0 env.decode2 mc with r | ⟨w2, out, mc2⟩ |
    ⟨w2, mc2⟩
  · have happ : applypatchPass2 sha env w1 src tgt tsha tsize ch mc = r := by
      rw [applypatchPass2, hp2]
    rw [happ]
    rw [hp2] at hfr
    exact hfr
  · have happ : applypatchPass2 sha env w1 src tgt tsha tsize ch mc =
        verifyCommit sha env w2 tgt tsha out ch.srcUse.st mc2 := by
      rw [applypatchPass2, hp2]
    rw [happ] at hfail ⊢
    rw [hp2] at hfr
    rw [verifyCommit_frame sha env w2 tgt tsha out ch.srcUse.st mc2 q hq2 hfail]
    exact hfr
  · have happ : applypatchPass2 sha env w1 src tgt tsha tsize ch mc = ⟨1, w2⟩ := by
      rw [applypatchPass2, hp2]
    rw [happ]
    rw [hp2] at hfr
    exact hfr

/-- Frame lemma for the whole loop. -/
theorem applypatchLoop_frame (sha : Bytes → Digest) (env : Env) (w : World)
    (src tgt : String) (tsha : Digest) (tsize : Nat) (ch : Choice) (q : String)
    (hq1 : q ≠ CACHE_TEMP_SOURCE) (hq2 : q ≠ stagingName tgt)
    (hfail : (applypatchLoop sha env w src tgt tsha tsize ch).code ≠ 0) :
    lookupFile (applypatchLoop sha env w src tgt tsha tsize ch).world.files q =
        lookupFile w.files q ∨
      (lookupFile (applypatchLoop sha env w src tgt tsha tsize ch).world.files q = none ∧
        q = src) := by
  have hfr := runPass_frame env w src tgt tsize ch 1 env.decode1 false q hq1 hq2
  rcases hp1 : runPass env w src tgt tsize ch 1 env.decode1 false with r | ⟨w1, out, mc⟩ |
    ⟨w1, mc⟩
  · have happ : applypatchLoop sha env w src tgt tsha tsize ch = r := by
      rw [applypatchLoop, hp1]
    rw [happ]
    rw [hp1] at hfr
    exact hfr
  · have happ : applypatchLoop sha env w src tgt tsha tsize ch =
        verifyCommit sha env w1 tgt tsha out ch.srcUse.st mc := by
      rw [applypatchLoop, hp1]
    rw [happ] at hfail ⊢
    rw [hp1] at hfr
    rw [verifyCommit_frame sha env w1 tgt tsha out ch.srcUse.st mc q hq2 hfail]
    exact hfr
  · have happ : applypatchLoop sha env w src tgt tsha tsize ch =
        applypatchPass2 sha env w1 src tgt tsha tsize ch mc := by
      rw [applypatchLoop, hp1]
    rw [happ] at hfail ⊢
    rw [hp1] at hfr
    have h2 := applypatchPass2_frame sha env w1 src tgt tsha tsize ch mc q hq1 hq2 hfail
    rcases h2 with h2 | ⟨h2, hsrc⟩
    · rw [h2]
      exact hfr
    · right
      exact ⟨h2, hsrc⟩

/-- C8 (amended): for every failing run whose effective target is not
the cache backup path, the target path entry is unchanged or absent,
absent only when the target equals the source path (the source may be
unlinked to free space).  The proviso about the cache backup path is
forced by the counterexample below: the source backup is written to
that fixed path before any space-freeing deletion. -/
theorem applypatch_failed_target_preserved (sha : Bytes → Digest) (env : Env) (w : World)
    (src tgtf : String) (tshaStr : List Char) (tsize : Nat)
    (pstrs : List (List Char)) (pdata : List Value)
    (_hmtd : isMTD (effTarget src tgtf) = false)
    (hc : effTarget src tgtf ≠ CACHE_TEMP_SOURCE)
    (hfail : (applypatch sha env w src tgtf tshaStr tsize pstrs pdata).code ≠ 0) :
    lookupFile (applypatch sha env w src tgtf tshaStr tsize pstrs pdata).world.files
        (effTarget src tgtf) =
        lookupFile w.files (effTarget src tgtf) ∨
      (lookupFile (applypatch sha env w src tgtf tshaStr tsize pstrs pdata).world.files
          (effTarget src tgtf) = none ∧
        effTarget src tgtf = src) := by
  rcases hparse : ParseSha1 tshaStr with _ | td
  · have happ : applypatch sha env w src tgtf tshaStr tsize pstrs pdata = ⟨1, w⟩ := by
      simp only [applypatch, hparse]
    rw [happ]
    left
    rfl
  · rcases htri : triage sha w src (effTarget src tgtf) pstrs pdata td with c | ch
    · have happ : applypatch sha env w src tgtf tshaStr tsize pstrs pdata = ⟨c, w⟩ := by
        simp only [applypatch, hparse, htri]
      rw [happ]
      left
      rfl
    · have happ : applypatch sha env w src tgtf tshaStr tsize pstrs pdata =
          applypatchLoop sha env w src (effTarget src tgtf) td tsize ch := by
        simp only [applypatch, hparse, htri]
      rw [happ] at hfail ⊢
      exact applypatchLoop_frame sha env w src (effTarget src tgtf) td tsize ch
        (effTarget src tgtf) hc (stagingName_ne (effTarget src tgtf)) hfail

/-- C8 counterexample: a failing filesystem-target run whose target IS
the cache backup path: the space-freeing branch overwrites it with the
source backup, so the original target bytes are gone although the run
returns non-zero, refuting the claim as stated for that target. -/
theorem applypatch_failed_target_clobbered_cex :
    isMTD "/cache/saved.file" = false ∧
      ("/cache/saved.file" : String) ≠ "s2" ∧
      (applypatch testSha
          ⟨DecodeOutcome.err [], DecodeOutcome.err [], some (1, 1),
           true, true, true, true, true, true, true⟩
          ⟨[("s2", ⟨[4], 420, 0, 0⟩), ("/cache/saved.file", ⟨[8], 420, 0, 0⟩)], []⟩
          "s2" "/cache/saved.file"
          (String.toList "0000000000000000000000000000000000000000") 4
          [String.toList "0400000000000000000000000000000000000000"]
          [⟨true, [66, 83, 68, 73, 70, 70, 52, 48]⟩]).code = 1 ∧
      lookupFile (applypatch testSha
          ⟨DecodeOutcome.err [], DecodeOutcome.err [], some (1, 1),
           true, true, true, true, true, true, true⟩
          ⟨[("s2", ⟨[4], 420, 0, 0⟩), ("/cache/saved.file", ⟨[8], 420, 0, 0⟩)], []⟩
          "s2" "/cache/saved.file"
          (String.toList "0000000000000000000000000000000000000000") 4
          [String.toList "0400000000000000000000000000000000000000"]
          [⟨true, [66, 83, 68, 73, 70, 70, 52, 48]⟩]).world.files "/cache/saved.file" =
        some ⟨[4], 420, 0, 0⟩ ∧
      lookupFile [("s2", (⟨[4], 420, 0, 0⟩ : FileData)),
          ("/cache/saved.file", ⟨[8], 420, 0, 0⟩)] "/cache/saved.file" =
        some ⟨[8], 420, 0, 0⟩ := by
  refine ⟨by decide, by decide, by decide, by decide, by decide⟩

/-- C8 witness: a failing run (everything missing) on an ordinary
target path; the target entry is untouched. -/
theorem applypatch_failed_target_preserved_witness :
    (applypatch testSha
        ⟨DecodeOutcome.ok [], DecodeOutcome.ok [], some (1, 1),
         true, true, true, true, true, true, true⟩
        ⟨[], []⟩ "s8" "t8"
        (String.toList "0000000000000000000000000000000000000000") 4 [] []).code ≠ 0 ∧
      (lookupFile (applypatch testSha
          ⟨DecodeOutcome.ok [], DecodeOutcome.ok [], some (1, 1),
           true, true, true, true, true, true, true⟩
          ⟨[], []⟩ "s8" "t8"
          (String.toList "0000000000000000000000000000000000000000") 4 [] []).world.files
          (effTarget "s8" "t8") =
          lookupFile (⟨[], []⟩ : World).files (effTarget "s8" "t8") ∨
        (lookupFile (applypatch testSha
            ⟨DecodeOutcome.ok [], DecodeOutcome.ok [], some (1, 1),
             true, true, true, true, true, true, true⟩
            ⟨[], []⟩ "s8" "t8"
            (String.toList "0000000000000000000000000000000000000000") 4 [] []).world.files
            (effTarget "s8" "t8") = none ∧
          effTarget "s8" "t8" = "s8")) :=
  ⟨by decide,
    applypatch_failed_target_preserved testSha
      ⟨DecodeOutcome.ok [], DecodeOutcome.ok [], some (1, 1),
       true, true, true, true, true, true, true⟩
      ⟨[], []⟩ "s8" "t8"
      (String.toList "0000000000000000000000000000000000000000") 4 [] []
      (by decide) (by decide) (by decide)⟩

theorem verifyCommit_mismatch (sha : Bytes → Digest) (env : Env) (w : World) (tgt : String)
    (tsha : Digest) (out : Bytes) (st : StatInfo) (mc : Bool) (hsha : sha out ≠ tsha) :
    verifyCommit sha env w tgt tsha out st mc = ⟨1, w⟩ := by
  rw [verifyCommit, if_pos hsha]

theorem decodePhase_ok_inv (env : Env) (w1 : World) (tgt : String) (tsize : Nat)
    (ch : Choice) (retry1 : Nat) (mc1 : Bool) (dec : DecodeOutcome) (W : World)
    (out : Bytes) (mc : Bool)
    (hmtd : isMTD tgt = false)
    (h : decodePhase env w1 tgt tsize ch retry1 mc1 dec = .ok W out mc) :
    W = setFile (setFile w1 (stagingName tgt) ⟨[], 0, 0, 0⟩) (stagingName tgt)
      ⟨out, 0, 0, 0⟩ := by
  cases dec with
  | ok o =>
    simp only [decodePhase, hmtd, Bool.false_eq_true, if_false] at h
    split_ifs at h
    cases h
    rfl
  | err wr =>
    simp only [decodePhase, hmtd, Bool.false_eq_true, if_false] at h
    split_ifs at h

theorem runPass_ok_staging (env : Env) (w : World) (src tgt : String) (tsize : Nat)
    (ch : Choice) (r0 : Nat) (dec : DecodeOutcome) (mc : Bool) (w1 : World) (out : Bytes)
    (mc1 : Bool) (hmtd : isMTD tgt = false)
    (h : runPass env w src tgt tsize ch r0 dec mc = .ok w1 out mc1) :
    lookupFile w1.files (stagingName tgt) = some ⟨out, 0, 0, 0⟩ := by
  rw [runPass] at h
  rcases hsp : spacePhase env w src tgt tsize ch.usingSrc ch.srcFileOpt r0 mc with
    r | ⟨wp, rp, mp⟩
  · rw [hsp] at h
    exact PassOutcome.noConfusion h
  · rw [hsp] at h
    have h2 : decodePhase env wp tgt tsize ch rp mp dec = .ok w1 out mc1 := h
    rw [decodePhase_ok_inv env wp tgt tsize ch rp mp dec w1 out mc1 hmtd h2]
    exact lookup_setFile_self _ _ _

theorem decodePhase_world_cases (env : Env) (w1 : World) (tgt : String) (tsize : Nat)
    (ch : Choice) (retry1 : Nat) (mc1 : Bool) (dec : DecodeOutcome) :
    (∃ W mcx, decodePhase env w1 tgt tsize ch retry1 mc1 dec = .again W mcx) ∨
      lookupFile (decodePhase env w1 tgt tsize ch retry1 mc1 dec).world.files
          (stagingName tgt) =
        lookupFile w1.files (stagingName tgt) ∨
      (∃ b, lookupFile (decodePhase env w1 tgt tsize ch retry1 mc1 dec).world.files
          (stagingName tgt) = some b) := by
  cases dec with
  | ok o =>
    simp only [decodePhase]
    split_ifs <;> first
      | exact Or.inr (Or.inl rfl)
      | exact Or.inr (Or.inr ⟨_, lookup_setFile_self _ _ _⟩)
  | err wr =>
    simp only [decodePhase]
    split_ifs <;> first
      | exact Or.inr (Or.inl rfl)
      | exact Or.inr (Or.inr ⟨_, lookup_setFile_self _ _ _⟩)
      | exact Or.inl ⟨_, _, rfl⟩

/-- C1 (amended): the staging file is unlinked only in the retry branch
(a decode failure with retry budget remaining, lines 767-769); on the
failing paths the claim names, it is left in place.  The parts, each
fully general: (1) with the target digest parsed and the triage
selecting a patch, applypatch is the patching loop; (2) the loop
forwards any early return of either pass unchanged; (3) whenever either
pass decodes successfully (any space handling) and the output digest
differs from target_sha1, the loop returns non-zero with the staging
file holding the decoded output; (4) when the decoder fails after the
staging file was set up, an exhausted retry budget gives a non-zero
return with the staging file holding the partial output, while a
remaining budget gives the retry outcome with the staging file
unlinked; (5) if the staging file is absent after a pass, the pass
either ended in retry or the file was absent before it. -/
theorem applypatch_staging_unlink_policy :
    (∀ (sha : Bytes → Digest) (env : Env) (w : World) (src tgtf : String)
        (tshaStr : List Char) (tsize : Nat) (pstrs : List (List Char))
        (pdata : List Value) (td : Digest) (ch : Choice),
        ParseSha1 tshaStr = some td →
        triage sha w src (effTarget src tgtf) pstrs pdata td = .go ch →
        applypatch sha env w src tgtf tshaStr tsize pstrs pdata =
          applypatchLoop sha env w src (effTarget src tgtf) td tsize ch) ∧
      (∀ (sha : Bytes → Digest) (env : Env) (w : World) (src tgt : String) (tsha : Digest)
          (tsize : Nat) (ch : Choice) (r : RunResult),
          (runPass env w src tgt tsize ch 1 env.decode1 false = .ret r ∨
            (∃ wa mca, runPass env w src tgt tsize ch 1 env.decode1 false = .again wa mca ∧
              runPass env wa src tgt tsize ch 0 env.decode2 mca = .ret r)) →
          applypatchLoop sha env w src tgt tsha tsize ch = r) ∧
      (∀ (sha : Bytes → Digest) (env : Env) (w : World) (src tgt : String) (tsha : Digest)
          (tsize : Nat) (ch : Choice) (w1 : World) (out : Bytes) (mc : Bool),
          isMTD tgt = false →
          (runPass env w src tgt tsize ch 1 env.decode1 false = .ok w1 out mc ∨
            (∃ wa mca, runPass env w src tgt tsize ch 1 env.decode1 false = .again wa mca ∧
              runPass env wa src tgt tsize ch 0 env.decode2 mca = .ok w1 out mc)) →
          sha out ≠ tsha →
          applypatchLoop sha env w src tgt tsha tsize ch = ⟨1, w1⟩ ∧
            lookupFile w1.files (stagingName tgt) = some ⟨out, 0, 0, 0⟩) ∧
      (∀ (env : Env) (w1 : World) (tgt : String) (tsize : Nat) (ch : Choice)
          (retry1 : Nat) (mc1 : Bool) (written : Bytes),
          isMTD tgt = false → ch.v.isBlob = true → env.openOk = true →
          magicOk ch.v = true →
          (retry1 = 0 →
            decodePhase env w1 tgt tsize ch retry1 mc1 (.err written) =
                .ret ⟨1, setFile (setFile w1 (stagingName tgt) ⟨[], 0, 0, 0⟩)
                  (stagingName tgt) ⟨written, 0, 0, 0⟩⟩ ∧
              lookupFile (decodePhase env w1 tgt tsize ch retry1 mc1
                  (.err written)).world.files (stagingName tgt) =
                some ⟨written, 0, 0, 0⟩) ∧
          (retry1 ≠ 0 →
            decodePhase env w1 tgt tsize ch retry1 mc1 (.err written) =
                .again (rmFile (setFile (setFile w1 (stagingName tgt) ⟨[], 0, 0, 0⟩)
                  (stagingName tgt) ⟨written, 0, 0, 0⟩) (stagingName tgt)) mc1 ∧
              lookupFile (decodePhase env w1 tgt tsize ch retry1 mc1
                  (.err written)).world.files (stagingName tgt) = none)) ∧
      (∀ (env : Env) (w1 : World) (tgt : String) (tsize : Nat) (ch : Choice)
          (retry1 : Nat) (mc1 : Bool) (dec : DecodeOutcome),
          lookupFile (decodePhase env w1 tgt tsize ch retry1 mc1 dec).world.files
              (stagingName tgt) = none →
          (∃ W mcx, decodePhase env w1 tgt tsize ch retry1 mc1 dec = .again W mcx) ∨
            lookupFile w1.files (stagingName tgt) = none) := by
  refine ⟨?_, ?_, ?_, ?_, ?_⟩
  · intro sha env w src tgtf tshaStr tsize pstrs pdata td ch hparse htri
    simp only [applypatch, hparse, htri]
  · intro sha env w src tgt tsha tsize ch r hdisj
    rcases hdisj with h1 | ⟨wa, mca, ha1, ha2⟩
    · rw [applypatchLoop, h1]
    · rw [applypatchLoop, ha1]
      show applypatchPass2 sha env wa src tgt tsha tsize ch mca = r
      rw [applypatchPass2, ha2]
  · intro sha env w src tgt tsha tsize ch w1 out mc hmtd hdisj hsha
    have hst : lookupFile w1.files (stagingName tgt) = some ⟨out, 0, 0, 0⟩ := by
      rcases hdisj with h1 | ⟨wa, mca, ha1, ha2⟩
      · exact runPass_ok_staging env w src tgt tsize ch 1 env.decode1 false w1 out mc
          hmtd h1
      · exact runPass_ok_staging env wa src tgt tsize ch 0 env.decode2 mca w1 out mc
          hmtd ha2
    refine ⟨?_, hst⟩
    rcases hdisj with h1 | ⟨wa, mca, ha1, ha2⟩
    · rw [applypatchLoop, h1]
      exact verifyCommit_mismatch sha env w1 tgt tsha out ch.srcUse.st mc hsha
    · rw [applypatchLoop, ha1]
      show applypatchPass2 sha env wa src tgt tsha tsize ch mca = ⟨1, w1⟩
      rw [applypatchPass2, ha2]
      exact verifyCommit_mismatch sha env w1 tgt tsha out ch.srcUse.st mc hsha
  · intro env w1 tgt tsize ch retry1 mc1 written hmtd hblob hopen hmagic
    have hred : decodePhase env w1 tgt tsize ch retry1 mc1 (.err written) =
        if retry1 = 0 then
          PassOutcome.ret ⟨1, setFile (setFile w1 (stagingName tgt) ⟨[], 0, 0, 0⟩)
            (stagingName tgt) ⟨written, 0, 0, 0⟩⟩
        else
          PassOutcome.again (rmFile (setFile (setFile w1 (stagingName tgt) ⟨[], 0, 0, 0⟩)
            (stagingName tgt) ⟨written, 0, 0, 0⟩) (stagingName tgt)) mc1 := by
      simp only [decodePhase, hblob, hmtd, hopen, hmagic, Bool.not_true,
        Bool.false_eq_true, eq_self_iff_true, if_false, if_true]
    refine ⟨fun hr => ?_, fun hr => ?_⟩
    · have he : decodePhase env w1 tgt tsize ch retry1 mc1 (.err written) =
          PassOutcome.ret ⟨1, setFile (setFile w1 (stagingName tgt) ⟨[], 0, 0, 0⟩)
            (stagingName tgt) ⟨written, 0, 0, 0⟩⟩ := by
        rw [hred, if_pos hr]
      refine ⟨he, ?_⟩
      rw [he]
      exact lookup_setFile_self _ _ _
    · have he : decodePhase env w1 tgt tsize ch retry1 mc1 (.err written) =
          PassOutcome.again (rmFile (setFile (setFile w1 (stagingName tgt) ⟨[], 0, 0, 0⟩)
            (stagingName tgt) ⟨written, 0, 0, 0⟩) (stagingName tgt)) mc1 := by
        rw [hred, if_neg hr]
      refine ⟨he, ?_⟩
      rw [he]
      exact lookup_rmFile_self _ _
  · intro env w1 tgt tsize ch retry1 mc1 dec h
    rcases decodePhase_world_cases env w1 tgt tsize ch retry1 mc1 dec with
      hca | hca | ⟨b, hca⟩
    · exact Or.inl hca
    · right
      rw [← hca]
      exact h
    · rw [hca] at h
      exact Option.noConfusion h

/-- C1 counterexample: a run that creates the staging file and returns
non-zero through the digest-mismatch path with the staging file still
present, refuting the claim that every such failing run unlinks it. -/
theorem applypatch_staging_not_unlinked_cex :
    (applypatch testSha
        ⟨DecodeOutcome.ok [9], DecodeOutcome.ok [], some (1, 1048576),
         true, true, true, true, true, true, true⟩
        ⟨[("sA", ⟨[2], 420, 0, 0⟩)], []⟩ "sA" "tA"
        (String.toList "0000000000000000000000000000000000000000") 4
        [String.toList "0200000000000000000000000000000000000000"]
        [⟨true, [66, 83, 68, 73, 70, 70, 52, 48]⟩]).code = 1 ∧
      lookupFile (applypatch testSha
          ⟨DecodeOutcome.ok [9], DecodeOutcome.ok [], some (1, 1048576),
           true, true, true, true, true, true, true⟩
          ⟨[("sA", ⟨[2], 420, 0, 0⟩)], []⟩ "sA" "tA"
          (String.toList "0000000000000000000000000000000000000000") 4
          [String.toList "0200000000000000000000000000000000000000"]
          [⟨true, [66, 83, 68, 73, 70, 70, 52, 48]⟩]).world.files (stagingName "tA") =
        some ⟨[9], 0, 0, 0⟩ := by
  refine ⟨by decide, by decide⟩

/-- C1 witness: the digest-mismatch part of the policy theorem applied
to a concrete run whose first pass decodes [9] against an all-zero
target digest: the loop returns 1 and the staging file holds [9]. -/
theorem applypatch_staging_unlink_policy_witness :
    testSha [9] ≠ List.replicate 20 0 ∧
      (applypatchLoop testSha
          ⟨DecodeOutcome.ok [9], DecodeOutcome.ok [], some (1, 1048576),
           true, true, true, true, true, true, true⟩
          ⟨[("sB", ⟨[2], 420, 0, 0⟩)], []⟩ "sB" "tB" (List.replicate 20 0) 4
          ⟨⟨[2], testSha [2], ⟨420, 0, 0⟩⟩, ⟨true, [66, 83, 68, 73, 70, 70, 52, 48]⟩, true,
            some ⟨[2], testSha [2], ⟨420, 0, 0⟩⟩⟩ =
          ⟨1, setFile (setFile ⟨[("sB", ⟨[2], 420, 0, 0⟩)], []⟩ (stagingName "tB")
            ⟨[], 0, 0, 0⟩) (stagingName "tB") ⟨[9], 0, 0, 0⟩⟩ ∧
        lookupFile (setFile (setFile ⟨[("sB", ⟨[2], 420, 0, 0⟩)], []⟩ (stagingName "tB")
            ⟨[], 0, 0, 0⟩) (stagingName "tB") ⟨[9], 0, 0, 0⟩).files (stagingName "tB") =
          some ⟨[9], 0, 0, 0⟩) :=
  ⟨by decide,
    applypatch_staging_unlink_policy.2.2.1 testSha
      ⟨DecodeOutcome.ok [9], DecodeOutcome.ok [], some (1, 1048576),
       true, true, true, true, true, true, true⟩
      ⟨[("sB", ⟨[2], 420, 0, 0⟩)], []⟩ "sB" "tB" (List.replicate 20 0) 4
      ⟨⟨[2], testSha [2], ⟨420, 0, 0⟩⟩, ⟨true, [66, 83, 68, 73, 70, 70, 52, 48]⟩, true,
        some ⟨[2], testSha [2], ⟨420, 0, 0⟩⟩⟩
      (setFile (setFile ⟨[("sB", ⟨[2], 420, 0, 0⟩)], []⟩ (stagingName "tB") ⟨[], 0, 0, 0⟩)
        (stagingName "tB") ⟨[9], 0, 0, 0⟩) [9] false
      (by decide) (Or.inl (by rfl)) (by decide)⟩

/-- C9: absent 32-bit overflow of target_size * 3, the integer
computation free > target_size * 3 / 2 of the code agrees exactly with
the rational comparison free > 1.5 * target_size of the spec, so the
enough-space predicate holds iff free exceeds both 256 KiB and 1.5
times the target size. -/
theorem enoughSpace_agrees_with_spec (free tsize : Nat) (hov : tsize * 3 < 2 ^ 32) :
    enoughSpace free tsize = true ↔
      (262144 < free ∧ (3 / 2 : ℚ) * (tsize : ℚ) < (free : ℚ)) := by
  rw [enoughSpace, Nat.mod_eq_of_lt hov]
  simp only [Bool.and_eq_true, decide_eq_true_eq]
  constructor
  · rintro ⟨h1, h2⟩
    refine ⟨h1, ?_⟩
    have h3 : tsize * 3 < free * 2 := (Nat.div_lt_iff_lt_mul (by norm_num)).mp h2
    have h4 : ((tsize * 3 : Nat) : ℚ) < ((free * 2 : Nat) : ℚ) := by exact_mod_cast h3
    push_cast at h4
    linarith
  · rintro ⟨h1, hq⟩
    refine ⟨h1, ?_⟩
    have h4 : ((tsize : ℚ)) * 3 < (free : ℚ) * 2 := by linarith
    have h3 : tsize * 3 < free * 2 := by exact_mod_cast h4
    exact (Nat.div_lt_iff_lt_mul (by norm_num)).mpr h3

/-- C9 witness: 400000 free bytes against a 100000-byte target. -/
theorem enoughSpace_agrees_with_spec_witness :
    100000 * 3 < 2 ^ 32 ∧
      (enoughSpace 400000 100000 = true ↔
        (262144 < 400000 ∧ (3 / 2 : ℚ) * (100000 : ℚ) < (400000 : ℚ))) :=
  ⟨by norm_num, enoughSpace_agrees_with_spec 400000 100000 (by norm_num)⟩

/-- C10: FreeSpaceForFile has unsigned return type, so its error return
of -1 is 2^32 - 1; that value passes both enough-space comparisons for
every target size, so a failed statfs makes the first pass proceed as
if space were unlimited: the space phase neither frees space nor backs
up and deletes the source. -/
theorem statfs_error_gives_unlimited_space (env : Env) (w : World) (src tgt : String)
    (tsize : Nat) (usingSrc : Bool) (sfo : Option FileContents) (mc : Bool) (t : Nat)
    (hmtd : isMTD tgt = false)
    (hst : env.statfs1 = none) :
    FreeSpaceForFile none = 2 ^ 32 - 1 ∧
      enoughSpace (FreeSpaceForFile none) t = true ∧
      spacePhase env w src tgt tsize usingSrc sfo 1 mc = .ok (w, 1, mc) := by
  have hgen : ∀ n : Nat, enoughSpace (FreeSpaceForFile none) n = true := by
    intro n
    rw [FreeSpaceForFile, enoughSpace]
    have h1 : n * 3 % 2 ^ 32 < 2 ^ 32 := Nat.mod_lt _ (by norm_num)
    have h2 : n * 3 % 2 ^ 32 / 2 ≤ (2 ^ 32 - 1) / 2 :=
      Nat.div_le_div_right (by omega)
    have h3 : n * 3 % 2 ^ 32 / 2 < 2 ^ 32 - 1 := by
      have : (2 ^ 32 - 1) / 2 < 2 ^ 32 - 1 := by norm_num
      omega
    simp only [Bool.and_eq_true, decide_eq_true_eq]
    exact ⟨by norm_num, h3⟩
  refine ⟨rfl, hgen t, ?_⟩
  rw [spacePhase, hmtd]
  simp only [Bool.false_eq_true, if_false]
  have he : (if 0 < (1 : Nat) then enoughSpace (FreeSpaceForFile env.statfs1) tsize
      else false) = true := by
    rw [if_pos (by norm_num), hst]
    exact hgen tsize
  rw [he, spaceFS]
  simp

/-- C10 witness: a concrete statfs-error environment on a filesystem
target. -/
theorem statfs_error_gives_unlimited_space_witness :
    FreeSpaceForFile none = 2 ^ 32 - 1 ∧
      enoughSpace (FreeSpaceForFile none) 7 = true ∧
      spacePhase
          ⟨DecodeOutcome.ok [], DecodeOutcome.ok [], none,
           true, true, true, true, true, true, true⟩
          ⟨[], []⟩ "sX" "tX" 7 true none 1 false = .ok (⟨[], []⟩, 1, false) :=
  statfs_error_gives_unlimited_space
    ⟨DecodeOutcome.ok [], DecodeOutcome.ok [], none,
     true, true, true, true, true, true, true⟩
    ⟨[], []⟩ "sX" "tX" 7 true none false 7 (by decide) (by decide)
